import Mathlib

/-!
Verification of the coordinate-normalization and date-reconciliation core of
the Iceberg-locations scraper.

The embedding models the two core functions of `src/iceberg.py` (and their
copies in `src/src/iceberg.py`):

* `dms2dec`: DMS-coordinate string to signed decimal degrees.  Python string
  scanning is modelled over `List Char`; the regular expressions of the source
  (`re.sub(r"\s", ...)`, `re.search("[swSW]", ...)`,
  `re.split("\D+", ..., maxsplit=4)`) are modelled by explicit character
  scanners with the same semantics on the character classes that occur here
  (ASCII whitespace and the ASCII digits; the exotic Unicode digit and space
  classes of Python regexes are outside the model).  Python `float`/`int`
  results are modelled as exact rationals; the `float()` grammar is modelled
  for plain digit strings with at most one dot (scientific notation and
  underscore separators are modelled as parse failures, which only makes
  theorems conditional on the modelled success smaller, never wrong on it).
  A Python exception is modelled as `none`.

* `get_update_datetime`: day-of-year plus revised datetime to an `MM/DD/YY`
  string.  Python's `datetime` is modelled by the proleptic Gregorian
  calendar (the documented semantics of the stdlib), together with its
  documented range limits: years 1..9999 (`datetime(year, 1, 1)` raises
  `ValueError` outside it), `timedelta` limited to |days| <= 999999999, and
  the ordinal range 1..3652059 for the result of `datetime + timedelta`
  (`OverflowError` outside it).  Exceptions are modelled as `none`.
-/

/-- Whitespace as removed by `re.sub(r"\s", "", dms_str)` (ASCII part). -/
def isPySpace (c : Char) : Bool :=
  c = ' ' || c = Char.ofNat 9 || c = Char.ofNat 10 || c = Char.ofNat 11 ||
  c = Char.ofNat 12 || c = Char.ofNat 13

/-- Decimal digit, the `\d` class of the source's regexes (ASCII part). -/
def isPyDigit (c : Char) : Bool :=
  48 ≤ c.toNat && c.toNat ≤ 57

/-- The characters matched by `re.search("[swSW]", dms_str)`. -/
def isSW (c : Char) : Bool :=
  c = 's' || c = 'S' || c = 'w' || c = 'W'

/-- Numeric value of a digit string, as `int()` computes it on all-digit input. -/
def digitsToNat (cs : List Char) : ℕ :=
  cs.foldl (fun a c => 10 * a + (c.toNat - 48)) 0

/-- Python `int()` on a token: succeeds exactly on nonempty all-digit strings
(the only shapes that reach it in `dms2dec`). A `ValueError` is `none`. -/
def pyIntNat (cs : List Char) : Option ℕ :=
  if !cs.isEmpty && cs.all isPyDigit then some (digitsToNat cs) else none

/-- Python `int()` on a scraped cell (used for `int(row[3])`): an optional
sign followed by digits. -/
def pyIntZ (cs : List Char) : Option ℤ :=
  match cs with
  | '-' :: t => (pyIntNat t).map (fun n => -(n : ℤ))
  | '+' :: t => (pyIntNat t).map (fun n => (n : ℤ))
  | _ => (pyIntNat cs).map (fun n => (n : ℤ))

/-- Python `float()` on the strings built by `dms2dec`: digits with at most
one dot, at least one digit.  The value is exact (`ℚ` in place of the IEEE
double; all comparisons made of it in this file are far coarser than the
double's rounding error). -/
def pyFloat (cs : List Char) : Option ℚ :=
  let ip := cs.takeWhile (fun c => c != '.')
  let rest := cs.dropWhile (fun c => c != '.')
  match rest with
  | [] =>
    if !ip.isEmpty && ip.all isPyDigit then some (digitsToNat ip) else none
  | _ :: fp =>
    if (!ip.isEmpty || !fp.isEmpty) && ip.all isPyDigit && fp.all isPyDigit then
      some ((digitsToNat ip : ℚ) + (digitsToNat fp : ℚ) / (10 : ℚ) ^ fp.length)
    else none

/-- `re.split("\D+", cs, maxsplit=k)`: split on maximal nonempty runs of
non-digits, at most `k` separator runs; after the `k`-th separator the raw
remainder (digits and non-digits alike) is the final piece. -/
def pySplitD : ℕ → List Char → List (List Char)
  | 0, cs => [cs]
  | k + 1, cs =>
    let r := cs.dropWhile isPyDigit
    if r.isEmpty then [cs]
    else cs.takeWhile isPyDigit :: pySplitD k (r.dropWhile (fun c => !isPyDigit c))

/-- `re.sub(r"\s", "", s)` on the characters of `s`. -/
def stripWs (s : String) : List Char :=
  s.data.filter (fun c => !isPySpace c)

/-- `list(filter(len, re.split("\D+", dms_str, maxsplit=4)))`. -/
def numbersOf (cs : List Char) : List (List Char) :=
  (pySplitD 4 cs).filter (fun l => !l.isEmpty)

/-- The arithmetic tail of `dms2dec` after the sign and the token list are
known: `numbers[0]` (IndexError on an empty list is `none`), the defaults
`"0"` for the missing minute / second / fractional-second tokens, the
composed `second + "." + frac_seconds` string, and
`sign * (int(degree) + float(minute)/60 + float(second)/3600)`. -/
def dmsCore (sign : ℚ) (numbers : List (List Char)) : Option ℚ :=
  match numbers with
  | [] => none
  | d :: rest =>
    match pyIntNat d, pyFloat (rest.getD 0 ['0']),
      pyFloat (rest.getD 1 ['0'] ++ '.' :: rest.getD 2 ['0']) with
    | some dv, some mv, some cv => some (sign * ((dv : ℚ) + mv / 60 + cv / 3600))
    | _, _, _ => none

/-- `dms2dec` of `src/iceberg.py` lines 18-47. -/
def dms2dec (s : String) : Option ℚ :=
  let cs := stripWs s
  dmsCore (if cs.any isSW then -1 else 1) (numbersOf cs)

/-- `dms2dec` of `src/src/iceberg.py` lines 19-48 (same statements, modulo
raw-string spelling of the same regexes). -/
def dms2dec_v2 (s : String) : Option ℚ :=
  let cs := stripWs s
  dmsCore (if cs.any isSW then -1 else 1) (numbersOf cs)

/-- A Python `datetime` value (the time fields never influence the core). -/
structure PyDatetime where
  year : ℤ
  month : ℕ
  day : ℕ
  hour : ℕ
  minute : ℕ
  second : ℕ
deriving DecidableEq

/-- Leap year, Python `calendar`/`datetime` rule, on ℤ (`%` on ℤ is
`Int.emod`, which agrees with Python `%` for the positive moduli used). -/
def isLeapZ (y : ℤ) : Bool :=
  y % 4 = 0 && (y % 100 ≠ 0 || y % 400 = 0)

/-- Month lengths, January first. -/
def monthLens (leap : Bool) : List ℕ :=
  [31, if leap then 29 else 28, 31, 30, 31, 30, 31, 31, 30, 31, 30, 31]

/-- Days in month `m` of year `y`. -/
def daysInMonth (y : ℤ) (m : ℕ) : ℕ :=
  (monthLens (isLeapZ y)).getD (m - 1) 0

/-- Days in year `y` before month `m`. -/
def daysBeforeMonthN (y : ℤ) (m : ℕ) : ℕ :=
  ((monthLens (isLeapZ y)).take (m - 1)).sum

/-- `revised_date.timetuple().tm_yday`: ordinal day-of-year of the date. -/
def tm_yday (r : PyDatetime) : ℕ :=
  daysBeforeMonthN r.year r.month + r.day

/-- Days before January 1 of year `y` counted from the proleptic Gregorian
epoch (ordinal 1 = January 1 of year 1); `/` on ℤ is `Int.ediv`, floor division for
these positive divisors, extending the stdlib's count to all of ℤ. -/
def daysBeforeYearZ (y : ℤ) : ℤ :=
  365 * (y - 1) + (y - 1) / 4 - (y - 1) / 100 + (y - 1) / 400

/-- `datetime(y, 1, 1).toordinal()`. -/
def ordJan1Z (y : ℤ) : ℤ :=
  daysBeforeYearZ y + 1

/-- Proleptic Gregorian ordinal of the date of `r`. -/
def dateOrdZ (r : PyDatetime) : ℤ :=
  daysBeforeYearZ r.year + tm_yday r

/-- Walk the month lengths to turn a 0-based day-of-year into (month, day). -/
def mdAux : ℕ → List ℕ → ℕ → ℕ × ℕ
  | m, [], d0 => (m, d0 + 1)
  | m, len :: rest, d0 => if d0 < len then (m, d0 + 1) else mdAux (m + 1) rest (d0 - len)

/-- Month and day from a 0-based day-of-year. -/
def monthDayFromDoy (leap : Bool) (d0 : ℕ) : ℕ × ℕ :=
  mdAux 1 (monthLens leap) d0

/-- Leap-year rule on a year offset within one 400-year cycle. -/
def isLeapNat (y : ℕ) : Bool :=
  y % 4 = 0 && (y % 100 ≠ 0 || y % 400 = 0)

/-- `date.fromordinal` within one 400-year cycle: `n0` is the 0-based day
offset from January 1 of year 1 of the cycle, the result is (year-in-cycle,
month, day); the `n100 = 4` / `n1 = 4` branch is the cycle- and 4-year-block
closing December 31, exactly as in the stdlib's `_ord2ymd`. -/
def ord2ymdAux (n0 : ℕ) : ℕ × ℕ × ℕ :=
  if n0 % 36524 % 1461 / 365 = 4 ∨ n0 / 36524 = 4 then
    (n0 / 36524 * 100 + n0 % 36524 / 1461 * 4 + n0 % 36524 % 1461 / 365, 12, 31)
  else
    (n0 / 36524 * 100 + n0 % 36524 / 1461 * 4 + n0 % 36524 % 1461 / 365 + 1,
      monthDayFromDoy
        (isLeapNat (n0 / 36524 * 100 + n0 % 36524 / 1461 * 4 + n0 % 36524 % 1461 / 365 + 1))
        (n0 % 36524 % 1461 % 365))

/-- `date.fromordinal` extended over ℤ by 400-year periodicity (146097 days
per cycle); on the stdlib's range 1..3652059 it agrees with the stdlib. -/
def ord2ymdZ (n : ℤ) : ℤ × ℕ × ℕ :=
  let c := (n - 1) / 146097
  let n0 := ((n - 1) - 146097 * c).toNat
  let t := ord2ymdAux n0
  (400 * c + (t.1 : ℤ), t.2.1, t.2.2)

/-- Two-digit zero padding, as `strftime` does for `%m`, `%d`, `%y`. -/
def pad2 (n : ℕ) : String :=
  if n < 10 then "0" ++ toString n else toString n

/-- `date.strftime("%m/%d/%y")` on a (year, month, day) triple. -/
def fmtDate (t : ℤ × ℕ × ℕ) : String :=
  pad2 t.2.1 ++ "/" ++ pad2 t.2.2 ++ "/" ++ pad2 (t.1 % 100).toNat

/-- The year chosen by lines 11-13 of `get_update_datetime`:
`revised_date.year`, minus one when `days > revised_date.timetuple().tm_yday`. -/
def candidateYear (days : ℤ) (r : PyDatetime) : ℤ :=
  if (tm_yday r : ℤ) < days then r.year - 1 else r.year

/-- Ordinal of `datetime(candidate_year, 1, 1) + timedelta(days - 1)`. -/
def resolvedOrd (days : ℤ) (r : PyDatetime) : ℤ :=
  ordJan1Z (candidateYear days r) + (days - 1)

/-- `get_update_datetime` of `src/iceberg.py` lines 10-15.  `none` models the
stdlib exceptions: `ValueError` from `datetime(year, 1, 1)` outside years
1..9999, `OverflowError` from `timedelta(days - 1)` outside |days-1| <=
999999999, and `OverflowError` from the shifted date falling outside
ordinals 1..3652059 (= `date(9999, 12, 31).toordinal()`). -/
def get_update_datetime (days : ℤ) (r : PyDatetime) : Option String :=
  let y := candidateYear days r
  if y < 1 ∨ 9999 < y then none
  else if days - 1 < -999999999 ∨ 999999999 < days - 1 then none
  else
    let o := resolvedOrd days r
    if o < 1 ∨ 3652059 < o then none
    else some (fmtDate (ord2ymdZ o))

/-- `get_update_datetime` of `src/src/iceberg.py` lines 11-16 (statement for
statement the same code). -/
def get_update_datetime_v2 (days : ℤ) (r : PyDatetime) : Option String :=
  let y := candidateYear days r
  if y < 1 ∨ 9999 < y then none
  else if days - 1 < -999999999 ∨ 999999999 < days - 1 then none
  else
    let o := resolvedOrd days r
    if o < 1 ∨ 3652059 < o then none
    else some (fmtDate (ord2ymdZ o))

/-- Validity of a `PyDatetime`, the constructor invariant of the stdlib type. -/
def ValidDT (r : PyDatetime) : Prop :=
  1 ≤ r.year ∧ r.year ≤ 9999 ∧ 1 ≤ r.month ∧ r.month ≤ 12 ∧
  1 ≤ r.day ∧ r.day ≤ daysInMonth r.year r.month ∧
  r.hour < 24 ∧ r.minute < 60 ∧ r.second < 60

instance (r : PyDatetime) : Decidable (ValidDT r) := by
  unfold ValidDT; infer_instance

/-- Follows the words of spec section 4.2: candidate year is `revised.year`,
minus one exactly when `day_of_year` is strictly greater than the revised
date's ordinal day-of-year; the result is January 1 of the candidate year
advanced by `day_of_year - 1` calendar days, formatted `MM/DD/YY`; no range
restriction appears in the spec, so the date arithmetic is the unbounded
proleptic Gregorian one. -/
def specCandidateYear (days : ℤ) (r : PyDatetime) : ℤ :=
  if (tm_yday r : ℤ) < days then r.year - 1 else r.year

/-- Follows the words of spec sections 4.2 and 6 (see `specCandidateYear`). -/
def specResolve (days : ℤ) (r : PyDatetime) : String :=
  fmtDate (ord2ymdZ (ordJan1Z (specCandidateYear days r) + (days - 1)))

/-- One output record of `get_iceberg_details`. -/
structure IcebergRecord where
  iceberg : String
  dms_longitude : String
  dms_lattitude : String
  longitude : ℚ
  lattitude : ℚ
  recent_observation : String
deriving DecidableEq

/-- The record built from one scraped row by the loop body of
`get_iceberg_details` (`src/iceberg.py` lines 83-90): an out-of-range index
(`IndexError`), a failing `dms2dec`, a failing `int(row[3])` and a failing
`get_update_datetime` all abort the whole call, hence `none` (the Python
expression order interleaves the index accesses and the parses differently,
but every failure collapses to the same `none`). -/
def mkRecord (row : List String) (revised : PyDatetime) : Option IcebergRecord := do
  let name ← row.get? 0
  let lonS ← row.get? 1
  let latS ← row.get? 2
  let dayS ← row.get? 3
  let lon ← dms2dec lonS
  let lat ← dms2dec latS
  let day ← pyIntZ dayS.data
  let obs ← get_update_datetime day revised
  some ⟨name, lonS, latS, lon, lat, obs⟩

/-- Sequential `Option`-valued map: the Python loop appends one result per
element and any exception aborts the loop. -/
def optTraverse (f : α → Option β) : List α → Option (List β)
  | [] => some []
  | a :: t =>
    match f a, optTraverse f t with
    | some b, some bt => some (b :: bt)
    | _, _ => none

/-- `get_iceberg_details` of `src/iceberg.py` lines 75-91: the row at index 0
is skipped (`if index == 0: continue`), every later row produces one record. -/
def get_iceberg_details (location_data : List (List String)) (revised : PyDatetime) :
    Option (List IcebergRecord) :=
  optTraverse (fun row => mkRecord row revised) (location_data.drop 1)

/-! ### Concrete sample strings (built by character code to keep quoting uniform) -/

/-- The double-quote character (seconds mark). -/
def qSec : Char := Char.ofNat 34

/-- The apostrophe character (minutes mark). -/
def qMin : Char := Char.ofNat 39

/-- The docstring example latitude with hemisphere N. -/
def sample48N : String := String.mk ['4','8','°','5','3', qMin, '1','0','.','1','8', qSec, 'N']

/-- The docstring example latitude with hemisphere S. -/
def sample48S : String := String.mk ['4','8','°','5','3', qMin, '1','0','.','1','8', qSec, 'S']

/-- The docstring example latitude with the hemisphere letter removed. -/
def sample48Bare : String := String.mk ['4','8','°','5','3', qMin, '1','0','.','1','8', qSec]

/-- The docstring example longitude with hemisphere W. -/
def sample2W : String := String.mk ['2','°','2','0', qMin, '3','5','.','0','9', qSec, 'W']

/-- True when the list is empty or starts with a digit (the shape on which
`re.split` produces no leading empty piece). -/
def digitLeadingB (cs : List Char) : Bool :=
  match cs with
  | [] => true
  | c :: _ => isPyDigit c

/-- The prefix of the input up to and including the separator run following
the `k`-th numeric run (the whole input when it has at most `k` runs). -/
def keepRuns : ℕ → List Char → List Char
  | 0, _ => []
  | k + 1, cs =>
    if (cs.dropWhile isPyDigit).isEmpty then cs
    else if ((cs.dropWhile isPyDigit).dropWhile (fun c => !isPyDigit c)).isEmpty then cs
    else
      cs.takeWhile isPyDigit ++ (cs.dropWhile isPyDigit).takeWhile (fun c => !isPyDigit c) ++
        keepRuns k ((cs.dropWhile isPyDigit).dropWhile (fun c => !isPyDigit c))

/-- The complementary suffix: everything from the `(k+1)`-st numeric run on. -/
def dropRuns : ℕ → List Char → List Char
  | 0, cs => cs
  | k + 1, cs =>
    if (cs.dropWhile isPyDigit).isEmpty then []
    else if ((cs.dropWhile isPyDigit).dropWhile (fun c => !isPyDigit c)).isEmpty then []
    else dropRuns k ((cs.dropWhile isPyDigit).dropWhile (fun c => !isPyDigit c))

/-- The shape of a zero-padded `MM/DD/YY` string, each field two digits. -/
def isMMDDYY (s : String) : Prop :=
  ∃ a b c : ℕ, a < 100 ∧ b < 100 ∧ c < 100 ∧
    s = pad2 a ++ "/" ++ pad2 b ++ "/" ++ pad2 c


/-! ### Small list lemmas -/

theorem list_dropWhile_nil_of_all {p : α → Bool} :
    ∀ {l : List α}, l.all p = true → l.dropWhile p = []
  | [], _ => rfl
  | a :: t, h => by
    simp only [List.all_cons, Bool.and_eq_true] at h
    simp [List.dropWhile_cons, h.1, list_dropWhile_nil_of_all h.2]

theorem list_takeWhile_append_of_all {p : α → Bool} :
    ∀ {l : List α} (t : List α), l.all p = true → (l ++ t).takeWhile p = l ++ t.takeWhile p
  | [], t, _ => rfl
  | a :: l, t, h => by
    simp only [List.all_cons, Bool.and_eq_true] at h
    simp [List.takeWhile_cons, h.1, list_takeWhile_append_of_all t h.2]

theorem list_dropWhile_append_of_all {p : α → Bool} :
    ∀ {l : List α} (t : List α), l.all p = true → (l ++ t).dropWhile p = t.dropWhile p
  | [], t, _ => rfl
  | a :: l, t, h => by
    simp only [List.all_cons, Bool.and_eq_true] at h
    simp [List.dropWhile_cons, h.1, list_dropWhile_append_of_all t h.2]

theorem list_all_takeWhile (p : α → Bool) : ∀ (l : List α), (l.takeWhile p).all p = true
  | [] => rfl
  | a :: t => by
    by_cases h : p a
    · simp [List.takeWhile_cons, h, list_all_takeWhile p t]
    · simp [List.takeWhile_cons, h]

theorem stripWs_all_not_space (s : String) :
    (stripWs s).all (fun c => !isPySpace c) = true := by
  simp only [stripWs, List.all_eq_true]
  intro c hc
  exact (List.mem_filter.mp hc).2

/-! ### C10: the two copies of the core functions agree -/

/-- C10: the copies of `dms2dec` and `get_update_datetime` in `src/iceberg.py`
and `src/src/iceberg.py` are extensionally equal: same value (hence also the
same failures, `none` being the model of an exception) on every input. -/
theorem C10_copies_agree :
    (∀ s : String, dms2dec_v2 s = dms2dec s) ∧
    (∀ (days : ℤ) (r : PyDatetime), get_update_datetime_v2 days r = get_update_datetime days r) :=
  ⟨fun _ => rfl, fun _ _ => rfl⟩

/-! ### C6: inputs without any digit fail -/

theorem numbersOf_nil_of_no_digit {cs : List Char}
    (h : cs.all (fun c => !isPyDigit c) = true) : numbersOf cs = [] := by
  cases cs with
  | nil => rfl
  | cons c t =>
    simp only [List.all_cons, Bool.and_eq_true] at h
    have hc : isPyDigit c = false := by simpa using h.1
    have hdrop : (c :: t).dropWhile isPyDigit = c :: t := by
      simp [List.dropWhile_cons, hc]
    have hdrop2 : (c :: t).dropWhile (fun c => !isPyDigit c) = [] :=
      list_dropWhile_nil_of_all (by simp [List.all_cons, hc, h.2])
    have htake : (c :: t).takeWhile isPyDigit = [] := by
      simp [List.takeWhile_cons, hc]
    simp [numbersOf, pySplitD, hdrop, hdrop2, htake]

/-- C6: an input string with no numeric token (no digit anywhere, so the
mandatory degree token is absent) makes `dms2dec` fail: the failure
(`IndexError` on `numbers[0]`, the spec's `InvalidCoordinateFormat`
condition) propagates to the caller as `none`, never a default value. -/
theorem C6_no_digit_fails (s : String) (h : s.data.all (fun c => !isPyDigit c) = true) :
    dms2dec s = none := by
  have hcs : (stripWs s).all (fun c => !isPyDigit c) = true := by
    simp only [List.all_eq_true] at h ⊢
    intro c hc
    exact h c (List.mem_of_mem_filter hc)
  simp [dms2dec, numbersOf_nil_of_no_digit hcs, dmsCore]

/-- Witness for C6 at the spec's own examples. -/
theorem C6_no_digit_fails_witness : dms2dec "" = none ∧ dms2dec "abc" = none :=
  ⟨C6_no_digit_fails "" (by decide), C6_no_digit_fails "abc" (by decide)⟩

/-! ### C4: sign factor and nonnegative magnitude -/

theorem pyFloat_nonneg {cs : List Char} {q : ℚ} (h : pyFloat cs = some q) : 0 ≤ q := by
  replace h : (match cs.dropWhile (fun c => c != '.') with
    | [] =>
      if !(cs.takeWhile (fun c => c != '.')).isEmpty &&
          (cs.takeWhile (fun c => c != '.')).all isPyDigit then
        some ((digitsToNat (cs.takeWhile (fun c => c != '.')) : ℕ) : ℚ)
      else none
    | _ :: fp =>
      if (!(cs.takeWhile (fun c => c != '.')).isEmpty || !fp.isEmpty) &&
          (cs.takeWhile (fun c => c != '.')).all isPyDigit && fp.all isPyDigit then
        some ((digitsToNat (cs.takeWhile (fun c => c != '.')) : ℚ) +
          (digitsToNat fp : ℚ) / (10 : ℚ) ^ fp.length)
      else none) = some q := h
  rcases hr : cs.dropWhile (fun c => c != '.') with _ | ⟨c, fp⟩ <;> simp only [hr] at h
  · split at h
    · rw [Option.some_inj] at h
      rw [← h]; positivity
    · exact Option.noConfusion h
  · split at h
    · rw [Option.some_inj] at h
      rw [← h]; positivity
    · exact Option.noConfusion h

/-- C4: on every input where `dms2dec` succeeds, the result is the product of
the sign factor — `-1` exactly when the whitespace-stripped input contains
one of `s`, `S`, `w`, `W` anywhere, `+1` otherwise (no `N`/`E` letter is
required) — with a nonnegative magnitude computed from the numeric tokens. -/
theorem C4_sign_factor (s : String) (v : ℚ) (h : dms2dec s = some v) :
    ∃ mag : ℚ, 0 ≤ mag ∧
      v = (if (stripWs s).any isSW then -1 else 1) * mag := by
  replace h : dmsCore (if (stripWs s).any isSW then -1 else 1) (numbersOf (stripWs s)) =
      some v := h
  rcases hn : numbersOf (stripWs s) with _ | ⟨d, rest⟩ <;> rw [hn] at h
  · exact Option.noConfusion h
  · simp only [dmsCore] at h
    rcases h1 : pyIntNat d with _ | dv <;>
      rcases h2 : pyFloat (rest.getD 0 ['0']) with _ | mv <;>
        rcases h3 : pyFloat (rest.getD 1 ['0'] ++ '.' :: rest.getD 2 ['0']) with _ | cv <;>
          simp only [h1, h2, h3] at h
    all_goals first
      | exact Option.noConfusion h
      | exact h.elim
      | (have hm := pyFloat_nonneg h2
         have hc := pyFloat_nonneg h3
         exact ⟨(dv : ℚ) + mv / 60 + cv / 3600, by positivity, (Option.some_inj.mp h).symm⟩)

/-! ### Concrete evaluations of `dms2dec` (tokenization by kernel reduction,
rational arithmetic by `norm_num`) -/

theorem dms2dec_as_core (s : String) :
    dms2dec s = dmsCore (if (stripWs s).any isSW then -1 else 1) (numbersOf (stripWs s)) := rfl

theorem dms2dec_eval_sample2W : dms2dec sample2W = some (-843509 / 360000) := by
  have h0 : dms2dec sample2W = dmsCore (-1)
      ([['2'], ['2','0'], ['3','5'], ['0','9']] : List (List Char)) := by
    rw [dms2dec_as_core,
      show (stripWs sample2W).any isSW = true from by decide,
      show numbersOf (stripWs sample2W) =
        ([['2'], ['2','0'], ['3','5'], ['0','9']] : List (List Char)) from by decide]
    exact rfl
  rw [h0,
    show dmsCore (-1) ([['2'], ['2','0'], ['3','5'], ['0','9']] : List (List Char)) =
      some ((-1 : ℚ) * (((2 : ℕ) : ℚ) + ((20 : ℕ) : ℚ) / 60 +
        (((35 : ℕ) : ℚ) + ((9 : ℕ) : ℚ) / (10 : ℚ) ^ (2 : ℕ)) / 3600)) from rfl]
  simp only [Option.some.injEq]
  norm_num

theorem dms2dec_eval_48 : dms2dec "48" = some 48 := by
  have h0 : dms2dec "48" = dmsCore 1 ([['4','8']] : List (List Char)) := by
    rw [dms2dec_as_core,
      show (stripWs "48").any isSW = false from by decide,
      show numbersOf (stripWs "48") = ([['4','8']] : List (List Char)) from by decide]
    exact rfl
  rw [h0,
    show dmsCore 1 ([['4','8']] : List (List Char)) =
      some ((1 : ℚ) * (((48 : ℕ) : ℚ) + ((0 : ℕ) : ℚ) / 60 +
        (((0 : ℕ) : ℚ) + ((0 : ℕ) : ℚ) / (10 : ℚ) ^ (1 : ℕ)) / 3600)) from rfl]
  simp only [Option.some.injEq]
  norm_num

theorem dms2dec_eval_sample48N : dms2dec sample48N = some (8799509 / 180000) := by
  have h0 : dms2dec sample48N = dmsCore 1
      ([['4','8'], ['5','3'], ['1','0'], ['1','8']] : List (List Char)) := by
    rw [dms2dec_as_core,
      show (stripWs sample48N).any isSW = false from by decide,
      show numbersOf (stripWs sample48N) =
        ([['4','8'], ['5','3'], ['1','0'], ['1','8']] : List (List Char)) from by decide]
    exact rfl
  rw [h0,
    show dmsCore 1 ([['4','8'], ['5','3'], ['1','0'], ['1','8']] : List (List Char)) =
      some ((1 : ℚ) * (((48 : ℕ) : ℚ) + ((53 : ℕ) : ℚ) / 60 +
        (((10 : ℕ) : ℚ) + ((18 : ℕ) : ℚ) / (10 : ℚ) ^ (2 : ℕ)) / 3600)) from rfl]
  simp only [Option.some.injEq]
  norm_num

theorem dms2dec_eval_sample48S : dms2dec sample48S = some (-8799509 / 180000) := by
  have h0 : dms2dec sample48S = dmsCore (-1)
      ([['4','8'], ['5','3'], ['1','0'], ['1','8']] : List (List Char)) := by
    rw [dms2dec_as_core,
      show (stripWs sample48S).any isSW = true from by decide,
      show numbersOf (stripWs sample48S) =
        ([['4','8'], ['5','3'], ['1','0'], ['1','8']] : List (List Char)) from by decide]
    exact rfl
  rw [h0,
    show dmsCore (-1) ([['4','8'], ['5','3'], ['1','0'], ['1','8']] : List (List Char)) =
      some ((-1 : ℚ) * (((48 : ℕ) : ℚ) + ((53 : ℕ) : ℚ) / 60 +
        (((10 : ℕ) : ℚ) + ((18 : ℕ) : ℚ) / (10 : ℚ) ^ (2 : ℕ)) / 3600)) from rfl]
  simp only [Option.some.injEq]
  norm_num

theorem dms2dec_eval_sample48Bare : dms2dec sample48Bare = some (8799509 / 180000) := by
  have h0 : dms2dec sample48Bare = dmsCore 1
      ([['4','8'], ['5','3'], ['1','0'], ['1','8']] : List (List Char)) := by
    rw [dms2dec_as_core,
      show (stripWs sample48Bare).any isSW = false from by decide,
      show numbersOf (stripWs sample48Bare) =
        ([['4','8'], ['5','3'], ['1','0'], ['1','8']] : List (List Char)) from by decide]
    exact rfl
  rw [h0,
    show dmsCore 1 ([['4','8'], ['5','3'], ['1','0'], ['1','8']] : List (List Char)) =
      some ((1 : ℚ) * (((48 : ℕ) : ℚ) + ((53 : ℕ) : ℚ) / 60 +
        (((10 : ℕ) : ℚ) + ((18 : ℕ) : ℚ) / (10 : ℚ) ^ (2 : ℕ)) / 3600)) from rfl]
  simp only [Option.some.injEq]
  norm_num

theorem dms2dec_eval_tail5s : dms2dec "1a2a3a4a5s" = some (-18617 / 18000) := by
  have h0 : dms2dec "1a2a3a4a5s" = dmsCore (-1)
      ([['1'], ['2'], ['3'], ['4'], ['5','s']] : List (List Char)) := by
    rw [dms2dec_as_core,
      show (stripWs "1a2a3a4a5s").any isSW = true from by decide,
      show numbersOf (stripWs "1a2a3a4a5s") =
        ([['1'], ['2'], ['3'], ['4'], ['5','s']] : List (List Char)) from by decide]
    exact rfl
  rw [h0,
    show dmsCore (-1) ([['1'], ['2'], ['3'], ['4'], ['5','s']] : List (List Char)) =
      some ((-1 : ℚ) * (((1 : ℕ) : ℚ) + ((2 : ℕ) : ℚ) / 60 +
        (((3 : ℕ) : ℚ) + ((4 : ℕ) : ℚ) / (10 : ℚ) ^ (1 : ℕ)) / 3600)) from rfl]
  simp only [Option.some.injEq]
  norm_num

theorem dms2dec_eval_trunc4 : dms2dec "1a2a3a4" = some (18617 / 18000) := by
  have h0 : dms2dec "1a2a3a4" = dmsCore 1
      ([['1'], ['2'], ['3'], ['4']] : List (List Char)) := by
    rw [dms2dec_as_core,
      show (stripWs "1a2a3a4").any isSW = false from by decide,
      show numbersOf (stripWs "1a2a3a4") =
        ([['1'], ['2'], ['3'], ['4']] : List (List Char)) from by decide]
    exact rfl
  rw [h0,
    show dmsCore 1 ([['1'], ['2'], ['3'], ['4']] : List (List Char)) =
      some ((1 : ℚ) * (((1 : ℕ) : ℚ) + ((2 : ℕ) : ℚ) / 60 +
        (((3 : ℕ) : ℚ) + ((4 : ℕ) : ℚ) / (10 : ℚ) ^ (1 : ℕ)) / 3600)) from rfl]
  simp only [Option.some.injEq]
  norm_num

theorem dms2dec_eval_10s20 : dms2dec "10s20" = some (-31 / 3) := by
  have h0 : dms2dec "10s20" = dmsCore (-1) ([['1','0'], ['2','0']] : List (List Char)) := by
    rw [dms2dec_as_core,
      show (stripWs "10s20").any isSW = true from by decide,
      show numbersOf (stripWs "10s20") = ([['1','0'], ['2','0']] : List (List Char)) from by decide]
    exact rfl
  rw [h0,
    show dmsCore (-1) ([['1','0'], ['2','0']] : List (List Char)) =
      some ((-1 : ℚ) * (((10 : ℕ) : ℚ) + ((20 : ℕ) : ℚ) / 60 +
        (((0 : ℕ) : ℚ) + ((0 : ℕ) : ℚ) / (10 : ℚ) ^ (1 : ℕ)) / 3600)) from rfl]
  simp only [Option.some.injEq]
  norm_num

theorem dms2dec_eval_1020 : dms2dec "1020" = some 1020 := by
  have h0 : dms2dec "1020" = dmsCore 1 ([['1','0','2','0']] : List (List Char)) := by
    rw [dms2dec_as_core,
      show (stripWs "1020").any isSW = false from by decide,
      show numbersOf (stripWs "1020") = ([['1','0','2','0']] : List (List Char)) from by decide]
    exact rfl
  rw [h0,
    show dmsCore 1 ([['1','0','2','0']] : List (List Char)) =
      some ((1 : ℚ) * (((1020 : ℕ) : ℚ) + ((0 : ℕ) : ℚ) / 60 +
        (((0 : ℕ) : ℚ) + ((0 : ℕ) : ℚ) / (10 : ℚ) ^ (1 : ℕ)) / 3600)) from rfl]
  simp only [Option.some.injEq]
  norm_num

/-- Witness for C4: the docstring's W example contains the letter W, so the
sign factor is `-1`; the theorem is applied to the directly checked value. -/
theorem C4_sign_factor_witness :
    dms2dec sample2W = some (-843509 / 360000) ∧
    ∃ mag : ℚ, 0 ≤ mag ∧
      (-843509 / 360000 : ℚ) = (if (stripWs sample2W).any isSW then -1 else 1) * mag :=
  ⟨dms2dec_eval_sample2W, C4_sign_factor sample2W (-843509 / 360000) dms2dec_eval_sample2W⟩

/-! ### C2: the value formula, and the docstring example value -/

/-- C2 (amended): on every input where `dms2dec` succeeds, with `d` the first
numeric token and minute / second / fractional-second tokens defaulting to
`"0"`, the result is `sign * (d + m/60 + c/3600)` where `c` is parsed from
the string concatenation `second + "." + frac`; the bare-degree example gives
`48`, and the docstring example parses to `8799509/180000 = 48.88616111...`,
which is within `1e-9` of `48.8861611111` (the claim's `48.8866111111` is the
docstring's own miscomputation; see the counterexample). -/
theorem C2_formula_amended :
    (∀ (s : String) (v : ℚ), dms2dec s = some v →
      ∃ (d : List Char) (rest : List (List Char)) (dv : ℕ) (mv cv : ℚ),
        numbersOf (stripWs s) = d :: rest ∧
        pyIntNat d = some dv ∧
        pyFloat (rest.getD 0 ['0']) = some mv ∧
        pyFloat (rest.getD 1 ['0'] ++ '.' :: rest.getD 2 ['0']) = some cv ∧
        v = (if (stripWs s).any isSW then -1 else 1) * ((dv : ℚ) + mv / 60 + cv / 3600)) ∧
    dms2dec "48" = some 48 ∧
    dms2dec sample48N = some (8799509 / 180000) ∧
    |(8799509 : ℚ) / 180000 - 48.8861611111| ≤ 1 / 1000000000 := by
  refine ⟨?_, dms2dec_eval_48, dms2dec_eval_sample48N, by rw [abs_le]; constructor <;> norm_num⟩
  intro s v h
  replace h : dmsCore (if (stripWs s).any isSW then -1 else 1) (numbersOf (stripWs s)) =
      some v := h
  rcases hn : numbersOf (stripWs s) with _ | ⟨d, rest⟩ <;> rw [hn] at h
  · exact Option.noConfusion h
  · simp only [dmsCore] at h
    rcases h1 : pyIntNat d with _ | dv <;>
      rcases h2 : pyFloat (rest.getD 0 ['0']) with _ | mv <;>
        rcases h3 : pyFloat (rest.getD 1 ['0'] ++ '.' :: rest.getD 2 ['0']) with _ | cv <;>
          simp only [h1, h2, h3] at h
    all_goals first
      | exact Option.noConfusion h
      | exact h.elim
      | exact ⟨d, rest, dv, mv, cv, rfl, h1, h2, h3, (Option.some_inj.mp h).symm⟩

/-- Counterexample for C2 as stated: the docstring example does not evaluate
to `48.8866111111` within `1e-9`; the code's value is `48.88616111...`
(the docstring's expected output itself contradicts the code's formula). -/
theorem C2_docstring_value_counterexample :
    dms2dec sample48N = some (8799509 / 180000) ∧
    ¬ (|(8799509 : ℚ) / 180000 - 48.8866111111| ≤ 1 / 1000000000) :=
  ⟨dms2dec_eval_sample48N, by rw [abs_le]; intro hab; rcases hab with ⟨hab1, hab2⟩; norm_num at hab1⟩

/-- Witness for C2: the formula part applied at the docstring example. -/
theorem C2_formula_amended_witness :
    dms2dec sample48N = some (8799509 / 180000) ∧
    ∃ (d : List Char) (rest : List (List Char)) (dv : ℕ) (mv cv : ℚ),
      numbersOf (stripWs sample48N) = d :: rest ∧
      pyIntNat d = some dv ∧
      pyFloat (rest.getD 0 ['0']) = some mv ∧
      pyFloat (rest.getD 1 ['0'] ++ '.' :: rest.getD 2 ['0']) = some cv ∧
      (8799509 / 180000 : ℚ) =
        (if (stripWs sample48N).any isSW then -1 else 1) * ((dv : ℚ) + mv / 60 + cv / 3600) :=
  ⟨dms2dec_eval_sample48N,
    C2_formula_amended.1 sample48N (8799509 / 180000) dms2dec_eval_sample48N⟩

/-! ### C9: hemisphere-letter removal negates the value -/

theorem dmsCore_neg (N : List (List Char)) :
    dmsCore (-1) N = (dmsCore 1 N).map (fun q => -q) := by
  rcases N with _ | ⟨d, rest⟩
  · rfl
  · simp only [dmsCore]
    rcases h1 : pyIntNat d with _ | dv <;>
      rcases h2 : pyFloat (rest.getD 0 ['0']) with _ | mv <;>
        rcases h3 : pyFloat (rest.getD 1 ['0'] ++ '.' :: rest.getD 2 ['0']) with _ | cv <;>
          simp only [h1, h2, h3]
    all_goals try rfl
    show some ((-1 : ℚ) * ((dv : ℚ) + mv / 60 + cv / 3600)) =
      some (-((1 : ℚ) * ((dv : ℚ) + mv / 60 + cv / 3600)))
    rw [Option.some_inj]
    ring

/-- C9 (amended): if the whitespace-stripped form of `s` is the one of `t`
with one extra hemisphere letter (S or W, case-insensitive), no other S/W
letter remains in `t`, and the removal leaves the numeric tokenization
unchanged (the letter was not itself separating two digit runs), then
`dms2dec s` is the negation of `dms2dec t` (and they fail together).  The
tokenization proviso is forced by the counterexample: a letter `s` acting as
the separator, as in `"10s20"`, changes the tokens when removed. -/
theorem C9_sign_negation_amended (s t : String) (pre post : List Char) (c : Char)
    (hc : isSW c = true)
    (hs : stripWs s = pre ++ c :: post)
    (ht : stripWs t = pre ++ post)
    (hno : (pre ++ post).all (fun x => !isSW x) = true)
    (htok : numbersOf (pre ++ c :: post) = numbersOf (pre ++ post)) :
    dms2dec s = (dms2dec t).map (fun q => -q) := by
  have hanyS : (stripWs s).any isSW = true := by
    rw [hs]
    simp [List.any_append, hc]
  have hanyT : (stripWs t).any isSW = false := by
    rw [ht]
    simp only [List.any_eq_false]
    intro x hx
    have hh := List.all_eq_true.mp hno x hx
    simpa using hh
  rw [dms2dec_as_core, dms2dec_as_core, hanyS, hanyT, hs, ht, htok]
  show dmsCore (-1) (numbersOf (pre ++ post)) =
    (dmsCore 1 (numbersOf (pre ++ post))).map (fun q => -q)
  exact dmsCore_neg _

/-- Counterexample for C9 as stated: `"10s20"` is a DMS string in the spec's
grammar (separators are arbitrary non-digit characters) whose only
hemisphere letter is the `s`; removing it gives `"1020"`, yet
`dms2dec "10s20" = -31/3` is not the negation of `dms2dec "1020" = 1020`,
because the removed letter also separated the two numeric tokens. -/
theorem C9_sign_negation_counterexample :
    dms2dec "10s20" = some (-31 / 3) ∧
    dms2dec "1020" = some 1020 ∧
    (-31 / 3 : ℚ) ≠ -1020 :=
  ⟨dms2dec_eval_10s20, dms2dec_eval_1020, by norm_num⟩

/-- Witness for C9: the docstring example with a trailing S against the same
string with the letter removed. -/
theorem C9_sign_negation_amended_witness :
    dms2dec sample48S = (dms2dec sample48Bare).map (fun q => -q) ∧
    dms2dec sample48S = some (-8799509 / 180000) :=
  ⟨C9_sign_negation_amended sample48S sample48Bare
      ['4','8','°','5','3', qMin, '1','0','.','1','8', qSec] [] 'S'
      (by decide) (by decide) (by decide) (by decide) (by decide),
   dms2dec_eval_sample48S⟩

theorem daysBeforeYearZ_succ (y : ℤ) :
    daysBeforeYearZ (y + 1) = daysBeforeYearZ y + (if isLeapZ y then 366 else 365) := by
  have hiff : isLeapZ y = true ↔ (y % 4 = 0 ∧ (y % 100 ≠ 0 ∨ y % 400 = 0)) := by
    simp [isLeapZ]
  rcases Bool.eq_false_or_eq_true (isLeapZ y) with hb | hb
  · have h := hiff.mp hb
    rw [hb, if_pos (by decide : true = true)]
    unfold daysBeforeYearZ
    rw [show y + 1 - 1 = y from by ring]
    omega
  · have h : ¬ (y % 4 = 0 ∧ (y % 100 ≠ 0 ∨ y % 400 = 0)) := by
      rw [← hiff, hb]; simp
    rw [hb, if_neg (by decide : ¬ (false = true))]
    unfold daysBeforeYearZ
    rw [show y + 1 - 1 = y from by ring]
    omega

set_option maxRecDepth 100000 in
theorem monthDayFromDoy_bounds :
    ∀ (b : Bool), ∀ d0 : ℕ, d0 < 365 →
      1 ≤ (monthDayFromDoy b d0).1 ∧ (monthDayFromDoy b d0).1 ≤ 12 ∧
      1 ≤ (monthDayFromDoy b d0).2 ∧ (monthDayFromDoy b d0).2 ≤ 31 := by
  decide

theorem tm_yday_pos (r : PyDatetime) (hv : ValidDT r) : 1 ≤ tm_yday r := by
  unfold tm_yday
  have := hv.2.2.2.2.1
  omega

theorem ord2ymdAux_md_bounds (n0 : ℕ) :
    1 ≤ (ord2ymdAux n0).2.1 ∧ (ord2ymdAux n0).2.1 ≤ 12 ∧
    1 ≤ (ord2ymdAux n0).2.2 ∧ (ord2ymdAux n0).2.2 ≤ 31 := by
  unfold ord2ymdAux
  split_ifs with he
  · norm_num
  · exact monthDayFromDoy_bounds _ _ (Nat.mod_lt _ (by norm_num))

theorem ord2ymdZ_md_bounds (n : ℤ) :
    1 ≤ (ord2ymdZ n).2.1 ∧ (ord2ymdZ n).2.1 ≤ 12 ∧
    1 ≤ (ord2ymdZ n).2.2 ∧ (ord2ymdZ n).2.2 ≤ 31 :=
  ord2ymdAux_md_bounds (((n - 1) - 146097 * ((n - 1) / 146097)).toNat)

theorem fmtDate_isMMDDYY (t : ℤ × ℕ × ℕ) (h1 : t.2.1 < 100) (h2 : t.2.2 < 100) :
    isMMDDYY (fmtDate t) := by
  refine ⟨t.2.1, t.2.2, (t.1 % 100).toNat, h1, h2, ?_, rfl⟩
  have ha := Int.emod_nonneg t.1 (by norm_num : (100 : ℤ) ≠ 0)
  have hb := Int.emod_lt_of_pos t.1 (by norm_num : (0 : ℤ) < 100)
  omega

/-! ### C5: the resolved date never lies after the revised date -/

/-- C5: for every day_of_year in [1, 366] and valid revised datetime, the
resolved ordinal (the date encoded in any returned `MM/DD/YY` string, dates
being ordered by their proleptic Gregorian ordinals) falls on or before the
revised datetime's own date; and any returned string is exactly the
formatting of that resolved ordinal's date. -/
theorem C5_resolved_before_revised (days : ℤ) (r : PyDatetime) (hv : ValidDT r)
    (h1 : 1 ≤ days) (h2 : days ≤ 366) :
    resolvedOrd days r ≤ dateOrdZ r ∧
    ∀ s, get_update_datetime days r = some s →
      s = fmtDate (ord2ymdZ (resolvedOrd days r)) := by
  constructor
  · have hyd : 1 ≤ tm_yday r := tm_yday_pos r hv
    unfold resolvedOrd candidateYear ordJan1Z dateOrdZ
    by_cases hc : (tm_yday r : ℤ) < days
    · rw [if_pos hc]
      have hstep : daysBeforeYearZ (r.year - 1 + 1) =
          daysBeforeYearZ (r.year - 1) + (if isLeapZ (r.year - 1) then 366 else 365) :=
        daysBeforeYearZ_succ (r.year - 1)
      rw [show r.year - 1 + 1 = r.year from by ring] at hstep
      split_ifs at hstep <;> omega
    · rw [if_neg hc]
      omega
  · intro s hs
    replace hs : (if candidateYear days r < 1 ∨ 9999 < candidateYear days r then none
      else if days - 1 < -999999999 ∨ 999999999 < days - 1 then none
      else if resolvedOrd days r < 1 ∨ 3652059 < resolvedOrd days r then none
      else some (fmtDate (ord2ymdZ (resolvedOrd days r)))) = some s := hs
    split_ifs at hs
    all_goals first
      | exact Option.noConfusion hs
      | exact (Option.some_inj.mp hs).symm

/-- Witness for C5 at the spec's example pair (43, 2021-02-12 10:00:00). -/
theorem C5_resolved_before_revised_witness :
    resolvedOrd 43 ⟨2021, 2, 12, 10, 0, 0⟩ ≤ dateOrdZ ⟨2021, 2, 12, 10, 0, 0⟩ ∧
    get_update_datetime 43 ⟨2021, 2, 12, 10, 0, 0⟩ = some "02/12/21" :=
  ⟨(C5_resolved_before_revised 43 ⟨2021, 2, 12, 10, 0, 0⟩ (by decide) (by norm_num)
      (by norm_num)).1,
   by decide⟩

/-! ### C1: the day-of-year resolution against the spec formula -/

/-- C1 (amended): whenever the candidate year lies in the `datetime`-supported
range 1..9999, `days - 1` is a representable `timedelta`, and the shifted
ordinal stays within the supported ordinals 1..3652059, the code returns
exactly the spec's resolution — candidate year `revised.year`, decremented
exactly when `day_of_year` is strictly greater than the revised date's
ordinal day-of-year, January 1 of that year advanced by `day_of_year - 1`
calendar days, formatted zero-padded `MM/DD/YY` — and the spec's three
examples hold.  Outside those ranges the stdlib raises instead of returning
(see the counterexample), which is the only amendment. -/
theorem C1_resolve_refines_spec :
    (∀ (days : ℤ) (r : PyDatetime),
      1 ≤ candidateYear days r → candidateYear days r ≤ 9999 →
      -999999999 ≤ days - 1 → days - 1 ≤ 999999999 →
      1 ≤ resolvedOrd days r → resolvedOrd days r ≤ 3652059 →
      get_update_datetime days r = some (specResolve days r)) ∧
    get_update_datetime 43 ⟨2021, 2, 12, 10, 0, 0⟩ = some "02/12/21" ∧
    get_update_datetime 44 ⟨2021, 2, 12, 10, 0, 0⟩ = some "02/13/20" ∧
    get_update_datetime 1 ⟨2021, 2, 12, 10, 0, 0⟩ = some "01/01/21" := by
  refine ⟨?_, by decide, by decide, by decide⟩
  intro days r hy1 hy2 ht1 ht2 ho1 ho2
  show (if candidateYear days r < 1 ∨ 9999 < candidateYear days r then none
    else if days - 1 < -999999999 ∨ 999999999 < days - 1 then none
    else if resolvedOrd days r < 1 ∨ 3652059 < resolvedOrd days r then none
    else some (fmtDate (ord2ymdZ (resolvedOrd days r)))) = some (specResolve days r)
  rw [if_neg (by omega), if_neg (by omega), if_neg (by omega)]
  rfl

/-- Counterexample for C1 as stated: at day_of_year 0 with revised datetime
0001-01-01 00:00:00 (a legal `datetime`), the code raises `OverflowError`
(modelled `none`) while the spec's calendar formula requires the date
December 31 of year 0, formatted `"12/31/00"`. -/
theorem C1_resolve_counterexample :
    get_update_datetime 0 ⟨1, 1, 1, 0, 0, 0⟩ = none ∧
    specResolve 0 ⟨1, 1, 1, 0, 0, 0⟩ = "12/31/00" ∧
    get_update_datetime 0 ⟨1, 1, 1, 0, 0, 0⟩ ≠ some (specResolve 0 ⟨1, 1, 1, 0, 0, 0⟩) :=
  ⟨by decide, by decide, by decide⟩

/-- Witness for C1 applied at the spec's example (43, 2021-02-12). -/
theorem C1_resolve_refines_spec_witness :
    get_update_datetime 43 ⟨2021, 2, 12, 10, 0, 0⟩ =
      some (specResolve 43 ⟨2021, 2, 12, 10, 0, 0⟩) ∧
    specResolve 43 ⟨2021, 2, 12, 10, 0, 0⟩ = "02/12/21" :=
  ⟨C1_resolve_refines_spec.1 43 ⟨2021, 2, 12, 10, 0, 0⟩ (by decide) (by decide) (by decide)
      (by decide) (by decide) (by decide),
   by decide⟩

/-! ### C7: out-of-range day_of_year values -/

/-- C7 (amended): for out-of-range day_of_year (0, negative, or > 366) the
resolution does not reject the input: provided the candidate year and the
shifted ordinal stay within the `datetime`-supported ranges (years 1..9999,
ordinals 1..3652059, |days-1| a representable timedelta), it returns a
syntactically valid zero-padded `MM/DD/YY` string through the same calendar
arithmetic, and for day_of_year <= 0 the resolved ordinal lies on or before
December 31 of the year preceding the revised year.  Outside those stdlib
ranges the call fails instead of returning (see the counterexample), which
is the only amendment. -/
theorem C7_out_of_range_resolves :
    ∀ (days : ℤ) (r : PyDatetime), ValidDT r → (days ≤ 0 ∨ 366 < days) →
      1 ≤ candidateYear days r →
      -999999999 ≤ days - 1 → days - 1 ≤ 999999999 →
      1 ≤ resolvedOrd days r → resolvedOrd days r ≤ 3652059 →
      (∃ s, get_update_datetime days r = some s ∧ isMMDDYY s) ∧
      (days ≤ 0 → resolvedOrd days r ≤ ordJan1Z r.year - 1) := by
  intro days r hv hout hy1 ht1 ht2 ho1 ho2
  have hy2 : candidateYear days r ≤ 9999 := by
    unfold candidateYear
    have := hv.2.1
    split_ifs <;> omega
  constructor
  · refine ⟨fmtDate (ord2ymdZ (resolvedOrd days r)), ?_, ?_⟩
    · show (if candidateYear days r < 1 ∨ 9999 < candidateYear days r then none
        else if days - 1 < -999999999 ∨ 999999999 < days - 1 then none
        else if resolvedOrd days r < 1 ∨ 3652059 < resolvedOrd days r then none
        else some (fmtDate (ord2ymdZ (resolvedOrd days r)))) =
        some (fmtDate (ord2ymdZ (resolvedOrd days r)))
      rw [if_neg (by omega), if_neg (by omega), if_neg (by omega)]
    · have hb := ord2ymdZ_md_bounds (resolvedOrd days r)
      exact fmtDate_isMMDDYY _ (by omega) (by omega)
  · intro hd0
    have hyd : 1 ≤ tm_yday r := tm_yday_pos r hv
    unfold resolvedOrd candidateYear ordJan1Z
    rw [if_neg (by omega : ¬ ((tm_yday r : ℤ) < days))]
    omega

/-- Counterexample for C7 as stated: day_of_year 0 is in the claim's domain,
0001-01-01 00:00:00 is a legal revised datetime, and there the code fails
with `OverflowError` (modelled `none`) instead of returning a date string. -/
theorem C7_overflow_counterexample :
    ValidDT ⟨1, 1, 1, 0, 0, 0⟩ ∧ (0 : ℤ) ≤ 0 ∧
    get_update_datetime 0 ⟨1, 1, 1, 0, 0, 0⟩ = none :=
  ⟨by decide, le_refl 0, by decide⟩

/-- Witness for C7 at day_of_year 0 with revised 2021-02-12 10:00:00: the
result exists, is a valid `MM/DD/YY` string (concretely `"12/31/20"`), and
lies in the prior year. -/
theorem C7_out_of_range_resolves_witness :
    (∃ s, get_update_datetime 0 ⟨2021, 2, 12, 10, 0, 0⟩ = some s ∧ isMMDDYY s) ∧
    resolvedOrd 0 ⟨2021, 2, 12, 10, 0, 0⟩ ≤ ordJan1Z 2021 - 1 ∧
    get_update_datetime 0 ⟨2021, 2, 12, 10, 0, 0⟩ = some "12/31/20" := by
  have h := C7_out_of_range_resolves 0 ⟨2021, 2, 12, 10, 0, 0⟩ (by decide)
    (Or.inl (le_refl 0)) (by decide) (by decide) (by decide) (by decide) (by decide)
  exact ⟨h.1, h.2 (le_refl 0), by decide⟩

/-! ### C8: one record per scraped row -/

theorem optTraverse_some {f : α → Option β} :
    ∀ {l : List α} {res : List β}, optTraverse f l = some res →
      res.length = l.length ∧
      ∀ i, i < res.length →
        ∃ a b, l.get? i = some a ∧ res.get? i = some b ∧ f a = some b := by
  intro l
  induction l with
  | nil =>
    intro res h
    replace h : some ([] : List β) = some res := h
    rw [Option.some_inj] at h
    subst h
    exact ⟨rfl, fun i hi => absurd hi (by simp)⟩
  | cons a t ih =>
    intro res h
    replace h : (match f a, optTraverse f t with
      | some b, some bt => some (b :: bt)
      | _, _ => none) = some res := h
    rcases hfa : f a with _ | b <;> rw [hfa] at h
    · exact Option.noConfusion h
    rcases hft : optTraverse f t with _ | bt <;> rw [hft] at h
    · exact Option.noConfusion h
    rw [Option.some_inj] at h
    subst h
    obtain ⟨hlen, hget⟩ := ih hft
    refine ⟨by simp [hlen], ?_⟩
    intro i hi
    cases i with
    | zero => exact ⟨a, b, rfl, rfl, hfa⟩
    | succ j =>
      have hj : j < bt.length := by
        simp only [List.length_cons] at hi
        omega
      obtain ⟨a2, b2, hh1, hh2, hh3⟩ := hget j hj
      exact ⟨a2, b2, by simpa using hh1, by simpa using hh2, hh3⟩

/-- C8 (amended): `get_iceberg_details` skips the row at index 0 (the
scraped table's header row) and produces exactly one record for every later
row, each built independently from its own row alone: the record's
coordinates are `dms2dec` of the row's DMS longitude and latitude cells and
its `recent_observation` is `get_update_datetime` of the row's day-of-year
with the scrape's revised date.  The only amendment against the claim is the
skipped first row. -/
theorem C8_one_record_per_row_amended :
    ∀ (rows : List (List String)) (revised : PyDatetime) (res : List IcebergRecord),
      get_iceberg_details rows revised = some res →
      (res.length = rows.length - 1 ∧
        ∀ i, i < res.length →
          ∃ (row : List String) (rec : IcebergRecord),
            rows.get? (i + 1) = some row ∧ res.get? i = some rec ∧
            mkRecord row revised = some rec) ∧
      (∀ (row : List String) (rec : IcebergRecord), mkRecord row revised = some rec →
        ∃ name lonS latS dayS lon lat day obs,
          row.get? 0 = some name ∧ row.get? 1 = some lonS ∧ row.get? 2 = some latS ∧
          row.get? 3 = some dayS ∧ dms2dec lonS = some lon ∧ dms2dec latS = some lat ∧
          pyIntZ dayS.data = some day ∧ get_update_datetime day revised = some obs ∧
          rec = ⟨name, lonS, latS, lon, lat, obs⟩) := by
  intro rows revised res h
  constructor
  · replace h : optTraverse (fun row => mkRecord row revised) (rows.drop 1) = some res := h
    obtain ⟨hlen, hget⟩ := optTraverse_some h
    constructor
    · rw [hlen, List.length_drop]
    · intro i hi
      obtain ⟨row, rec, h1, h2, h3⟩ := hget i hi
      refine ⟨row, rec, ?_, h2, h3⟩
      rw [List.get?_drop] at h1
      rw [show i + 1 = 1 + i from by omega]
      exact h1
  · intro row rec hmk
    simp only [mkRecord, Option.bind_eq_bind, Option.bind_eq_some] at hmk
    obtain ⟨name, h0, lonS, h1, latS, h2, dayS, h3, lon, h4, lat, h5, day, h6, obs, h7, h8⟩ := hmk
    exact ⟨name, lonS, latS, dayS, lon, lat, day, obs, h0, h1, h2, h3, h4, h5, h6, h7,
      (Option.some_inj.mp h8).symm⟩

/-- Counterexample for C8 as stated: two scraped rows produce one record,
not two — the loop body `if index == 0: continue` drops the first row. -/
theorem C8_one_record_per_row_counterexample :
    (get_iceberg_details [["h1", "h2", "h3", "9"], ["b", "4", "5", "6"]]
        ⟨2021, 2, 12, 10, 0, 0⟩).map List.length = some 1 ∧
    ([["h1", "h2", "h3", "9"], ["b", "4", "5", "6"]] : List (List String)).length = 2 ∧
    (1 : ℕ) ≠ 2 :=
  ⟨by decide, rfl, by decide⟩

/-- Witness for C8: the amended count on the same concrete input. -/
theorem C8_one_record_per_row_amended_witness :
    (get_iceberg_details [["h1", "h2", "h3", "9"], ["b", "4", "5", "6"]]
        ⟨2021, 2, 12, 10, 0, 0⟩).map List.length =
      some (([["h1", "h2", "h3", "9"], ["b", "4", "5", "6"]] : List (List String)).length - 1) := by
  rcases hg : get_iceberg_details [["h1", "h2", "h3", "9"], ["b", "4", "5", "6"]]
      ⟨2021, 2, 12, 10, 0, 0⟩ with _ | res
  · exact absurd hg (by decide)
  · have h := ((C8_one_record_per_row_amended _ _ _ hg).1).1
    simp [h]

/-! ### C3: tokenization machinery for truncation after the fourth run -/

theorem keepRuns_append_dropRuns : ∀ (k : ℕ) (cs : List Char),
    keepRuns k cs ++ dropRuns k cs = cs
  | 0, cs => rfl
  | k + 1, cs => by
    unfold keepRuns dropRuns
    split_ifs with hA hB
    · simp
    · simp
    · rw [List.append_assoc, List.append_assoc,
        keepRuns_append_dropRuns k ((cs.dropWhile isPyDigit).dropWhile (fun c => !isPyDigit c)),
        List.takeWhile_append_dropWhile, List.takeWhile_append_dropWhile]

theorem head_dropWhile_false {q : α → Bool} :
    ∀ {l : List α} {x : α} {xs : List α}, l.dropWhile q = x :: xs → q x = false := by
  intro l
  induction l with
  | nil => intro x xs h; exact absurd h (by simp)
  | cons a t ih =>
    intro x xs h
    by_cases ha : q a
    · rw [List.dropWhile_cons_of_pos ha] at h
      exact ih h
    · rw [List.dropWhile_cons_of_neg ha] at h
      cases h
      simpa using ha

theorem digitLeadingB_keepRuns : ∀ (k : ℕ) (cs : List Char),
    digitLeadingB cs = true → digitLeadingB (keepRuns k cs) = true := by
  intro k cs h
  cases k with
  | zero => rfl
  | succ k =>
    unfold keepRuns
    split_ifs with hA hB
    · exact h
    · exact h
    · cases cs with
      | nil => simp at hA
      | cons c t =>
        have hc : isPyDigit c = true := h
        rw [List.takeWhile_cons_of_pos hc]
        simp only [List.cons_append]
        exact hc

theorem dropWhile_digitLeading {cs : List Char} (h : digitLeadingB cs = true) :
    cs.dropWhile (fun c => !isPyDigit c) = cs := by
  cases cs with
  | nil => rfl
  | cons c t =>
    have hc : isPyDigit c = true := h
    rw [List.dropWhile_cons_of_neg (by simp [hc])]

theorem numbersOf_take_keepRuns : ∀ (k : ℕ) (cs : List Char), digitLeadingB cs = true →
    ((pySplitD k cs).filter (fun l => !l.isEmpty)).take k =
    ((pySplitD k (keepRuns k cs)).filter (fun l => !l.isEmpty)).take k := by
  intro k
  induction k with
  | zero => intro cs h; rfl
  | succ k ih =>
    intro cs h
    by_cases hA : (cs.dropWhile isPyDigit).isEmpty = true
    · rw [show keepRuns (k + 1) cs = cs from by unfold keepRuns; rw [if_pos hA]]
    · by_cases hB : ((cs.dropWhile isPyDigit).dropWhile (fun c => !isPyDigit c)).isEmpty = true
      · rw [show keepRuns (k + 1) cs = cs from by
          unfold keepRuns; rw [if_neg hA, if_pos hB]]
      · have hk : keepRuns (k + 1) cs =
            cs.takeWhile isPyDigit ++
              ((cs.dropWhile isPyDigit).takeWhile (fun c => !isPyDigit c) ++
                keepRuns k ((cs.dropWhile isPyDigit).dropWhile (fun c => !isPyDigit c))) := by
          conv_lhs => rw [keepRuns]
          rw [if_neg hA, if_neg hB, List.append_assoc]
        cases cs with
        | nil => simp at hA
        | cons c t =>
          have hc : isPyDigit c = true := h
          rcases hr : (c :: t).dropWhile isPyDigit with _ | ⟨x, r2⟩
          · rw [hr] at hA; exact absurd rfl hA
          have hx : isPyDigit x = false := head_dropWhile_false hr
          have hB2 : ((x :: r2).dropWhile (fun c => !isPyDigit c)).isEmpty = false := by
            have hh := hB; rw [hr] at hh
            exact Bool.not_eq_true _ ▸ (Bool.of_not_eq_true hh)
          have hRdl : digitLeadingB ((x :: r2).dropWhile (fun c => !isPyDigit c)) = true := by
            rcases hrest : (x :: r2).dropWhile (fun c => !isPyDigit c) with _ | ⟨y, r3⟩
            · rfl
            · have hy := head_dropWhile_false hrest
              have : isPyDigit y = true := by
                by_cases hyy : isPyDigit y = true
                · exact hyy
                · rw [Bool.not_eq_true] at hyy
                  rw [hyy] at hy
                  exact absurd hy (by simp)
              exact this
          -- left split
          have hL : pySplitD (k + 1) (c :: t) =
              (c :: t).takeWhile isPyDigit ::
                pySplitD k (((c :: t).dropWhile isPyDigit).dropWhile (fun c => !isPyDigit c)) := by
            conv_lhs => rw [pySplitD]
            rw [if_neg (by rw [hr]; simp)]
          -- right split
          have hKdl : digitLeadingB
              (keepRuns k (((c :: t).dropWhile isPyDigit).dropWhile (fun c => !isPyDigit c))) =
              true := by
            apply digitLeadingB_keepRuns
            rw [hr]; exact hRdl
          have hPc : (c :: t).takeWhile isPyDigit = c :: t.takeWhile isPyDigit :=
            List.takeWhile_cons_of_pos hc
          have hSEP : ((c :: t).dropWhile isPyDigit).takeWhile (fun c => !isPyDigit c) =
              x :: r2.takeWhile (fun c => !isPyDigit c) := by
            rw [hr]
            exact List.takeWhile_cons_of_pos (by simp [hx])
          have hdropPSK : (((c :: t).takeWhile isPyDigit ++
              (((c :: t).dropWhile isPyDigit).takeWhile (fun c => !isPyDigit c) ++
                keepRuns k (((c :: t).dropWhile isPyDigit).dropWhile
                  (fun c => !isPyDigit c))))).dropWhile isPyDigit =
              ((c :: t).dropWhile isPyDigit).takeWhile (fun c => !isPyDigit c) ++
                keepRuns k (((c :: t).dropWhile isPyDigit).dropWhile (fun c => !isPyDigit c)) := by
            rw [list_dropWhile_append_of_all _ (list_all_takeWhile _ _), hSEP,
              List.cons_append,
              List.dropWhile_cons_of_neg (show ¬ isPyDigit x = true by rw [hx]; simp),
              ← List.cons_append, ← hSEP]
          have htakePSK : (((c :: t).takeWhile isPyDigit ++
              (((c :: t).dropWhile isPyDigit).takeWhile (fun c => !isPyDigit c) ++
                keepRuns k (((c :: t).dropWhile isPyDigit).dropWhile
                  (fun c => !isPyDigit c))))).takeWhile isPyDigit =
              (c :: t).takeWhile isPyDigit := by
            rw [list_takeWhile_append_of_all _ (list_all_takeWhile _ _), hSEP,
              List.cons_append,
              List.takeWhile_cons_of_neg (show ¬ isPyDigit x = true by rw [hx]; simp),
              List.append_nil]
          have hrecPSK : (((c :: t).dropWhile isPyDigit).takeWhile (fun c => !isPyDigit c) ++
                keepRuns k (((c :: t).dropWhile isPyDigit).dropWhile
                  (fun c => !isPyDigit c))).dropWhile (fun c => !isPyDigit c) =
              keepRuns k (((c :: t).dropWhile isPyDigit).dropWhile (fun c => !isPyDigit c)) := by
            rw [list_dropWhile_append_of_all _ (list_all_takeWhile _ _)]
            exact dropWhile_digitLeading hKdl
          have hR : pySplitD (k + 1) (keepRuns (k + 1) (c :: t)) =
              (c :: t).takeWhile isPyDigit ::
                pySplitD k (keepRuns k (((c :: t).dropWhile isPyDigit).dropWhile
                  (fun c => !isPyDigit c))) := by
            rw [hk]
            conv_lhs => rw [pySplitD]
            rw [if_neg (by rw [hdropPSK, hSEP]; simp), htakePSK, hdropPSK, hrecPSK]
          rw [hL, hR]
          rw [List.filter_cons_of_pos (by rw [hPc]; simp),
            List.filter_cons_of_pos (by rw [hPc]; simp)]
          rw [List.take_succ_cons, List.take_succ_cons]
          have hIH := ih (((c :: t).dropWhile isPyDigit).dropWhile (fun c => !isPyDigit c))
            (by rw [hr]; exact hRdl)
          rw [hIH]

theorem list_getD_take : ∀ (l : List α) (n i : ℕ) (z : α), i < n →
    (l.take n).getD i z = l.getD i z
  | [], n, i, z, _ => by simp
  | a :: t, 0, i, z, h => absurd h (by omega)
  | a :: t, n + 1, 0, z, _ => by simp
  | a :: t, n + 1, i + 1, z, h => by
    simp only [List.take_succ_cons, List.getD_cons_succ]
    exact list_getD_take t n i z (by omega)

theorem all_keepRuns {p : Char → Bool} (k : ℕ) {cs : List Char} (h : cs.all p = true) :
    (keepRuns k cs).all p = true := by
  rw [← keepRuns_append_dropRuns k cs, List.all_append, Bool.and_eq_true] at h
  exact h.1

theorem dmsCore_take4 (sign : ℚ) {n1 n2 : List (List Char)} (h : n1.take 4 = n2.take 4) :
    dmsCore sign n1 = dmsCore sign n2 := by
  rcases n1 with _ | ⟨d1, r1⟩ <;> rcases n2 with _ | ⟨d2, r2⟩
  · rfl
  · exact absurd h (by simp)
  · exact absurd h (by simp)
  · simp only [List.take_succ_cons, List.cons.injEq] at h
    obtain ⟨hd, hr⟩ := h
    subst hd
    have hg : ∀ i, i < 3 → r1.getD i ['0'] = r2.getD i ['0'] := by
      intro i hi
      rw [← list_getD_take r1 3 i _ hi, hr, list_getD_take r2 3 i _ hi]
    simp only [dmsCore]
    rw [hg 0 (by omega), hg 1 (by omega), hg 2 (by omega)]

/-- C3 (amended): `dms2dec` tokenizes the whitespace-stripped input with a
4-separator-bounded split and uses at most the first four numeric tokens.
For an input whose stripped form starts with a digit, the numeric value is
therefore unchanged by truncating the input after the separator that follows
the fourth numeric run — provided the dropped tail contains none of the sign
letters s/S/w/W, because the whole stripped string (dropped tail included)
still feeds the sign search.  The two provisos are forced by the
counterexample (a sign letter in the tail flips the sign; a non-digit-leading
input shifts the pieces so that the fourth kept token is the raw remainder). -/
theorem C3_first_four_tokens_amended (s : String)
    (h1 : digitLeadingB (stripWs s) = true)
    (h2 : (dropRuns 4 (stripWs s)).all (fun c => !isSW c) = true) :
    dms2dec s = dms2dec (String.mk (keepRuns 4 (stripWs s))) := by
  have hkeepall : (keepRuns 4 (stripWs s)).all (fun c => !isPySpace c) = true :=
    all_keepRuns 4 (stripWs_all_not_space s)
  have hstrip : stripWs (String.mk (keepRuns 4 (stripWs s))) = keepRuns 4 (stripWs s) :=
    List.filter_eq_self.mpr (fun a ha => (List.all_eq_true.mp hkeepall) a ha)
  have hsw : (stripWs s).any isSW = (keepRuns 4 (stripWs s)).any isSW := by
    conv_lhs => rw [← keepRuns_append_dropRuns 4 (stripWs s)]
    rw [List.any_append,
      show (dropRuns 4 (stripWs s)).any isSW = false from by
        simp only [List.any_eq_false]
        intro x hx
        simpa using (List.all_eq_true.mp h2) x hx,
      Bool.or_false]
  rw [dms2dec_as_core, dms2dec_as_core, hstrip, ← hsw]
  exact dmsCore_take4 _ (numbersOf_take_keepRuns 4 (stripWs s) h1)

/-- Counterexample for C3 as stated: `"1a2a3a4a5s"` has five numeric runs and
starts with a digit; truncating after the fourth numeric run gives
`"1a2a3a4"`, yet the results differ — the ignored tail still contains the
letter `s`, which the sign search sees, so the full input parses negative
while the truncation parses positive. -/
theorem C3_first_four_tokens_counterexample :
    dms2dec "1a2a3a4a5s" = some (-18617 / 18000) ∧
    dms2dec "1a2a3a4" = some (18617 / 18000) ∧
    some (-18617 / 18000 : ℚ) ≠ some (18617 / 18000 : ℚ) :=
  ⟨dms2dec_eval_tail5s, dms2dec_eval_trunc4, by
    intro hcon
    rw [Option.some_inj] at hcon
    norm_num at hcon⟩

/-- Witness for C3: a digit-leading input with five numeric runs and a
sign-free tail equals its truncation (the kept prefix `"1a2a3a4a"`). -/
theorem C3_first_four_tokens_amended_witness :
    digitLeadingB (stripWs "1a2a3a4a5e6") = true ∧
    dms2dec "1a2a3a4a5e6" = dms2dec "1a2a3a4a" := by
  have h := C3_first_four_tokens_amended "1a2a3a4a5e6" (by decide) (by decide)
  rw [show String.mk (keepRuns 4 (stripWs "1a2a3a4a5e6")) = "1a2a3a4a" from by decide] at h
  exact ⟨by decide, h⟩
